import Mathlib

/-!
Shallow embedding of `src/main.py`, a batch data-quality pipeline:
`validate_record` escalates every record to an external classification
collaborator (the LLM client) and flags a discrepancy exactly when the
response is the literal string "false"; `process_records` (the body of the
`GET /validate` endpoint) fetches the records with status "pending",
validates each, marks each completed in the store, sends one consolidated
email when discrepancies were found, and returns a JSON summary.

External effects (the classification call, the store status update, the
email send) are recorded as explicit trace events; the classification
collaborator is a parameter mapping the prompt text to its response.
`print` logging statements are elided, as no observable property here
depends on them.  Numeric record fields are modelled as `Int`.
-/

/-- One reporting unit to validate, mirroring the MongoDB document fields
used by `src/main.py` (`_id` is modelled as a `Nat` identifier). -/
structure Record where
  id : Nat
  tenant_name : String
  date : String
  new_accounts : Int
  account_points : Int
  total_account_points : Int
  status : String
deriving DecidableEq, Inhabited

/-- Overwriting the `status` field of a record, the effect of the
`$set` operator in the store update. -/
def Record.setStatus (r : Record) (st : String) : Record :=
  { r with status := st }

/-- A discrepancy, exactly the tuple
`(record["tenant_name"], record["date"], "Validation failed")` that
`validate_record` returns in the Python source. -/
abbrev Discrepancy := String × String × String

/-- Observable external effects of a pipeline run. -/
inductive Event where
  | aiCall (prompt : String) (response : String)
  | statusUpdate (recId : Nat) (newStatus : String)
  | emailSent (body : String)
deriving DecidableEq

/-- Whether an event is an outbound email. -/
def Event.isEmail : Event → Bool
  | emailSent _ => true
  | _ => false

/-- The prompt text built by `validate_record` (the f-string at
`src/main.py:49-67`), with the record fields interpolated. -/
def buildPrompt (record : Record) : String :=
  "\n        Please verify if the reported total points follow this rule:\n\n" ++
  "        **Rule:** Reported total points should be equal to (new_accounts * account_points).\n\n" ++
  "        **Data:**\n" ++
  "        Tenant: " ++ record.tenant_name ++ "\n" ++
  "        Date: " ++ record.date ++ "\n" ++
  "        New Accounts: " ++ toString record.new_accounts ++ "\n" ++
  "        Account Points: " ++ toString record.account_points ++ "\n" ++
  "        Reported Total Points: " ++ toString record.total_account_points ++ "\n\n" ++
  "        **Instructions:**\n" ++
  "        - If the data follows the rule, respond **exactly** as: `true`\n" ++
  "        - If the data does **not** follow the rule, respond **exactly** as: `false`\n" ++
  "        - Do **not** provide any extra text, just return `true` or `false`.\n\n" ++
  "        Your response:\n        "

/-- `validate_record` (`src/main.py:38-84`): builds the prompt, invokes the
classification collaborator `ai` on it, and returns the discrepancy tuple
exactly when the response is the literal string "false"; otherwise `none`.
The second component records the outbound classification call. -/
def validate_record (ai : String → String) (record : Record) :
    Option Discrepancy × List Event :=
  let prompt := buildPrompt record
  let ai_decision := ai prompt
  (if ai_decision = "false" then
      some (record.tenant_name, record.date, "Validation failed")
    else
      none,
   [Event.aiCall prompt ai_decision])

/-- The email body built by `send_email` (`src/main.py:96-98`): a header
followed by one line per discrepancy, in list order. -/
def email_body (discrepancies : List Discrepancy) : String :=
  discrepancies.foldl
    (fun acc t =>
      acc ++ "Tenant: " ++ t.1 ++ ", Date: " ++ t.2.1 ++ ", Reason: " ++ t.2.2 ++ "\n")
    "The following records have discrepancies:\n\n"

/-- `send_email` (`src/main.py:86-107`): returns immediately when the
discrepancy list is empty, otherwise composes and sends exactly one
message. -/
def send_email (discrepancies : List Discrepancy) : List Event :=
  if discrepancies.isEmpty then []
  else [Event.emailSent (email_body discrepancies)]

/-- `collection.update_one (\x7b"_id": id\x7d, \x7b"$set": \x7b"status": s\x7d\x7d)`
(`src/main.py:121`): overwrite the `status` field of the first record with
the given identifier. -/
def update_one (store : List Record) (recId : Nat) (newStatus : String) :
    List Record :=
  match store with
  | [] => []
  | r :: rest =>
    if r.id = recId then r.setStatus newStatus :: rest
    else r :: update_one rest recId newStatus

/-- Result of the per-record loop: the store after the status updates, the
accumulated discrepancy list (`all_discrepancies`), and the event trace. -/
structure LoopOut where
  store : List Record
  discrepancies : List Discrepancy
  events : List Event
deriving DecidableEq

/-- The `for record in pending_records` loop of `process_records`
(`src/main.py:115-121`): validate each record, append its discrepancy (if
any) in order, then unconditionally mark the record completed. -/
def processLoop (ai : String → String) :
    List Record → List Record → LoopOut
  | [], store => ⟨store, [], []⟩
  | record :: rest, store =>
    let v := validate_record ai record
    let store1 := update_one store record.id "completed"
    let out := processLoop ai rest store1
    ⟨out.store,
     (match v.1 with
      | some d => d :: out.discrepancies
      | none => out.discrepancies),
     v.2 ++ (Event.statusUpdate record.id "completed" :: out.events)⟩

/-- The JSON object returned by the `GET /validate` endpoint. -/
structure ApiResponse where
  message : String
  errors_found : Nat
deriving DecidableEq

/-- `process_records` (`src/main.py:109-126`), the body of `GET /validate`:
query the pending records, run the validation loop, send the consolidated
email, and return the JSON summary together with the final store state and
the event trace. -/
def process_records (ai : String → String) (store : List Record) :
    ApiResponse × LoopOut :=
  let pending_records := store.filter (fun r => r.status = "pending")
  let out := processLoop ai pending_records store
  let all_discrepancies := out.discrepancies
  let emailEvents := send_email all_discrepancies
  (⟨"Validation completed", all_discrepancies.length⟩,
   ⟨out.store, all_discrepancies, out.events ++ emailEvents⟩)

/-!
Exception-passing variant.  In the Python source the OpenAI call inside
`validate_record` may raise, and `process_records` installs no handler: the
exception propagates out of the loop, the failing record's status update on
line 121 is never executed, the remaining records are not visited, and no
email or JSON response is produced.  The fallible classification
collaborator returns `Except.error` for a raised exception.
-/

/-- `validate_record` when the classification call may raise: the exception
propagates before the token comparison. -/
def validate_recordE (ai : String → Except String String) (record : Record) :
    Except String (Option Discrepancy) :=
  match ai (buildPrompt record) with
  | .error e => .error e
  | .ok ai_decision =>
    .ok (if ai_decision = "false" then
          some (record.tenant_name, record.date, "Validation failed")
        else
          none)

/-- The `process_records` loop under a possibly-raising classification
call: an exception aborts the loop, leaving the store as updated so far
(the failing record not yet marked completed). -/
def processLoopE (ai : String → Except String String) :
    List Record → List Record → List Discrepancy →
      Except String (List Discrepancy) × List Record
  | [], store, acc => (.ok acc, store)
  | record :: rest, store, acc =>
    match validate_recordE ai record with
    | .error e => (.error e, store)
    | .ok d =>
      let acc1 := match d with
        | some x => acc ++ [x]
        | none => acc
      let store1 := update_one store record.id "completed"
      processLoopE ai rest store1 acc1

/-- `process_records` under a possibly-raising classification call: on an
exception no email is sent and no JSON response is produced; the store
keeps only the updates committed before the failure. -/
def process_recordsE (ai : String → Except String String)
    (store : List Record) : Except String ApiResponse × List Record :=
  let pending_records := store.filter (fun r => r.status = "pending")
  match processLoopE ai pending_records store [] with
  | (.error e, store1) => (.error e, store1)
  | (.ok ds, store1) => (.ok ⟨"Validation completed", ds.length⟩, store1)

/-- Concrete record from the spec scenario: arithmetic holds (10 × 5 = 50). -/
def acmeJan1 : Record :=
  ⟨1, "Acme", "2024-01-01", 10, 5, 50, "pending"⟩

/-- Concrete record from the spec scenario: arithmetic fails (10 × 5 ≠ 60). -/
def acmeJan2 : Record :=
  ⟨2, "Acme", "2024-01-02", 10, 5, 60, "pending"⟩

/-! ### Helper lemmas about the store update -/

theorem setStatus_id (r : Record) (st : String) :
    (r.setStatus st).id = r.id := rfl

theorem setStatus_status (r : Record) (st : String) :
    (r.setStatus st).status = st := rfl

theorem setStatus_setStatus (r : Record) (st : String) :
    (r.setStatus st).setStatus st = r.setStatus st := rfl

theorem update_one_length (s : List Record) (x : Nat) (st : String) :
    (update_one s x st).length = s.length := by
  induction s with
  | nil => rfl
  | cons r rest ih =>
    by_cases h : r.id = x <;> simp [update_one, h, ih]

theorem update_one_map_id (s : List Record) (x : Nat) (st : String) :
    (update_one s x st).map Record.id = s.map Record.id := by
  induction s with
  | nil => rfl
  | cons r rest ih =>
    by_cases h : r.id = x <;> simp [update_one, h, ih, setStatus_id]

theorem getD_mem_of_lt (s : List Record) (i : Nat) (hi : i < s.length) :
    s.getD i default ∈ s := by
  rw [List.getD_eq_getElem s default hi]
  exact List.getElem_mem hi

theorem update_one_getD (s : List Record) (x : Nat) (st : String)
    (hnd : (s.map Record.id).Nodup) (i : Nat) (hi : i < s.length) :
    (update_one s x st).getD i default =
      (if (s.getD i default).id = x
        then (s.getD i default).setStatus st
        else s.getD i default) := by
  induction s generalizing i with
  | nil => simp at hi
  | cons r rest ih =>
    rw [List.map_cons, List.nodup_cons] at hnd
    match i with
    | 0 =>
      by_cases h : r.id = x
      · rw [show update_one (r :: rest) x st = r.setStatus st :: rest from by
            simp [update_one, h],
          List.getD_cons_zero, List.getD_cons_zero, if_pos h]
      · rw [show update_one (r :: rest) x st = r :: update_one rest x st from by
            simp [update_one, h],
          List.getD_cons_zero, List.getD_cons_zero, if_neg h]
    | j + 1 =>
      have hj : j < rest.length := Nat.lt_of_succ_lt_succ hi
      by_cases h : r.id = x
      · have hmem : (rest.getD j default).id ∈ rest.map Record.id :=
          List.mem_map_of_mem Record.id (getD_mem_of_lt rest j hj)
        have hne : (rest.getD j default).id ≠ x := by
          intro hEq
          apply hnd.1
          rw [h, ← hEq]
          exact hmem
        have hupd : update_one (r :: rest) x st = r.setStatus st :: rest := by
          simp [update_one, h]
        rw [hupd, List.getD_cons_succ, List.getD_cons_succ, if_neg hne]
      · have hupd : update_one (r :: rest) x st = r :: update_one rest x st := by
          simp [update_one, h]
        rw [hupd, List.getD_cons_succ, List.getD_cons_succ]
        exact ih hnd.2 j hj

theorem processLoop_store (ai : String → String) (rs store : List Record) :
    (processLoop ai rs store).store =
      rs.foldl (fun s r => update_one s r.id "completed") store := by
  induction rs generalizing store with
  | nil => rfl
  | cons r rest ih => simp [processLoop, ih]

theorem foldl_update_length (rs s : List Record) :
    (rs.foldl (fun t r => update_one t r.id "completed") s).length = s.length := by
  induction rs generalizing s with
  | nil => rfl
  | cons r rest ih => rw [List.foldl_cons, ih, update_one_length]

theorem foldl_update_map_id (rs s : List Record) :
    (rs.foldl (fun t r => update_one t r.id "completed") s).map Record.id =
      s.map Record.id := by
  induction rs generalizing s with
  | nil => rfl
  | cons r rest ih => rw [List.foldl_cons, ih, update_one_map_id]

theorem foldl_update_getD (rs : List Record) (s : List Record)
    (hnd : (s.map Record.id).Nodup) (i : Nat) (hi : i < s.length) :
    (rs.foldl (fun t r => update_one t r.id "completed") s).getD i default =
      (if (s.getD i default).id ∈ rs.map Record.id
        then (s.getD i default).setStatus "completed"
        else s.getD i default) := by
  induction rs generalizing s with
  | nil => simp
  | cons r rest ih =>
    rw [List.foldl_cons]
    have hnd1 : ((update_one s r.id "completed").map Record.id).Nodup := by
      rw [update_one_map_id]; exact hnd
    have hi1 : i < (update_one s r.id "completed").length := by
      rw [update_one_length]; exact hi
    rw [ih (update_one s r.id "completed") hnd1 hi1,
      update_one_getD s r.id "completed" hnd i hi, List.map_cons]
    by_cases h : (s.getD i default).id = r.id
    · rw [if_pos h, if_pos (List.mem_cons.mpr (Or.inl h))]
      rw [setStatus_id]
      by_cases h2 : (s.getD i default).id ∈ rest.map Record.id
      · rw [if_pos h2, setStatus_setStatus]
      · rw [if_neg h2]
    · rw [if_neg h]
      by_cases h2 : (s.getD i default).id ∈ rest.map Record.id
      · rw [if_pos h2, if_pos (List.mem_cons.mpr (Or.inr h2))]
      · rw [if_neg h2,
          if_neg (fun hm => (List.mem_cons.mp hm).elim h h2)]

theorem pending_id_mem_iff (store : List Record)
    (hnd : (store.map Record.id).Nodup) (i : Nat) (hi : i < store.length) :
    (store.getD i default).id ∈
        (store.filter (fun r => r.status = "pending")).map Record.id ↔
      (store.getD i default).status = "pending" := by
  constructor
  · intro hmem
    rcases List.mem_map.mp hmem with ⟨b, hb, hid⟩
    have hbs := List.mem_filter.mp hb
    have hbstat : b.status = "pending" := by simpa using hbs.2
    have hbe : b = store.getD i default :=
      List.inj_on_of_nodup_map hnd hbs.1 (getD_mem_of_lt store i hi) hid
    rw [← hbe]
    exact hbstat
  · intro hstat
    apply List.mem_map_of_mem
    apply List.mem_filter.mpr
    exact ⟨getD_mem_of_lt store i hi, by simpa using hstat⟩

theorem run_store_length (ai : String → String) (store : List Record) :
    ((process_records ai store).2.store).length = store.length := by
  simp [process_records, processLoop_store, foldl_update_length]

theorem run_store_getD (ai : String → String) (store : List Record)
    (hnd : (store.map Record.id).Nodup) (i : Nat) (hi : i < store.length) :
    ((process_records ai store).2.store).getD i default =
      (if (store.getD i default).status = "pending"
        then (store.getD i default).setStatus "completed"
        else store.getD i default) := by
  have h1 : (process_records ai store).2.store =
      (store.filter (fun r => r.status = "pending")).foldl
        (fun s r => update_one s r.id "completed") store := by
    simp [process_records, processLoop_store]
  rw [h1, foldl_update_getD _ _ hnd i hi]
  by_cases h : (store.getD i default).status = "pending"
  · rw [if_pos ((pending_id_mem_iff store hnd i hi).mpr h), if_pos h]
  · rw [if_neg (fun hm => h ((pending_id_mem_iff store hnd i hi).mp hm)), if_neg h]

theorem run_no_pending (ai : String → String) (store : List Record)
    (hnd : (store.map Record.id).Nodup) :
    ((process_records ai store).2.store).filter
        (fun r => r.status = "pending") = [] := by
  apply List.filter_eq_nil_iff.mpr
  intro a ha
  rcases List.mem_iff_getElem.mp ha with ⟨i, hil, hia⟩
  have hil0 : i < store.length := by
    rw [← run_store_length ai store]; exact hil
  have hD : ((process_records ai store).2.store).getD i default = a := by
    rw [List.getD_eq_getElem _ default hil, hia]
  rw [run_store_getD ai store hnd i hil0] at hD
  by_cases h : (store.getD i default).status = "pending"
  · rw [if_pos h] at hD
    rw [← hD]
    simp [Record.setStatus]
  · rw [if_neg h] at hD
    rw [← hD]
    simpa using h

/-! ### Helper lemmas about the loop results -/

theorem processLoop_discrepancies (ai : String → String)
    (rs store : List Record) :
    (processLoop ai rs store).discrepancies =
      rs.filterMap (fun r => (validate_record ai r).1) := by
  induction rs generalizing store with
  | nil => rfl
  | cons r rest ih =>
    rw [List.filterMap_cons]
    cases hv : (validate_record ai r).1 <;> simp [processLoop, ih, hv]

theorem processLoop_no_email (ai : String → String) (rs store : List Record) :
    ((processLoop ai rs store).events).filter Event.isEmail = [] := by
  induction rs generalizing store with
  | nil => rfl
  | cons r rest ih =>
    simp [processLoop, validate_record, List.filter_append, ih, Event.isEmail]

theorem filter_send_email (ds : List Discrepancy) :
    (send_email ds).filter Event.isEmail = send_email ds := by
  by_cases h : ds.isEmpty <;> simp [send_email, h, Event.isEmail]

theorem run_discrepancies (ai : String → String) (store : List Record) :
    (process_records ai store).2.discrepancies =
      (store.filter (fun r => r.status = "pending")).filterMap
        (fun r => (validate_record ai r).1) := by
  simp [process_records, processLoop_discrepancies]

theorem run_email_events (ai : String → String) (store : List Record) :
    ((process_records ai store).2.events).filter Event.isEmail =
      send_email ((process_records ai store).2.discrepancies) := by
  simp [process_records, List.filter_append, processLoop_no_email,
    filter_send_email]

/-- A record already processed by an earlier run. -/
def globexDone : Record :=
  ⟨3, "Globex", "2024-01-03", 2, 4, 8, "completed"⟩

/-- A classification collaborator whose call raises (modelled as
`Except.error`), as when the OpenAI endpoint is unreachable. -/
def failingAi : String → Except String String :=
  fun _ => Except.error "APIConnectionError"

/-- Spec-side description used by claim C10: the in-order concatenation of
the non-empty results of `validate_record` over the pending records, stated
in the claim's own words for comparison with the loop accumulator. -/
def specDiscrepancyList (ai : String → String) (store : List Record) :
    List Discrepancy :=
  (store.filter (fun r => r.status = "pending")).filterMap
    (fun r => (validate_record ai r).1)

/-! ### Claim theorems -/

/-- C1: for every record whose arithmetic check fails and for which the
classification collaborator returns the exact string "false",
`validate_record` returns the discrepancy whose tenant name and date equal
those of the input record and whose reason is the fixed string
"Validation failed". -/
theorem failed_arith_false_token_discrepancy (record : Record)
    (ai : String → String)
    (harith : record.total_account_points ≠
      record.new_accounts * record.account_points)
    (hai : ai (buildPrompt record) = "false") :
    (validate_record ai record).1 =
      some (record.tenant_name, record.date, "Validation failed") := by
  simp [validate_record, hai]

/-- Witness for C1: the spec's concrete scenario, `acmeJan2` (10 × 5 ≠ 60)
with the collaborator stubbed to return "false". -/
theorem failed_arith_false_token_discrepancy_witness :
    acmeJan2.total_account_points ≠
        acmeJan2.new_accounts * acmeJan2.account_points ∧
      (validate_record (fun _ => "false") acmeJan2).1 =
        some ("Acme", "2024-01-02", "Validation failed") :=
  ⟨by decide,
   failed_arith_false_token_discrepancy acmeJan2 (fun _ => "false")
     (by decide) rfl⟩

/-- C2: after one pipeline run every record that was pending before the run
is completed (and otherwise unchanged), every other record is untouched, and
the store's length is preserved — so the only status transition any
operation performs is pending → completed.  The `Nodup` hypothesis is the
data model's guarantee that the store-assigned identifiers are unique. -/
theorem run_status_transition (ai : String → String) (store : List Record)
    (hnd : (store.map Record.id).Nodup) (i : Nat) (hi : i < store.length) :
    ((process_records ai store).2.store).length = store.length ∧
    ((process_records ai store).2.store).getD i default =
      (if (store.getD i default).status = "pending"
        then (store.getD i default).setStatus "completed"
        else store.getD i default) :=
  ⟨run_store_length ai store, run_store_getD ai store hnd i hi⟩

/-- Witness for C2: a two-record store (one pending, one completed), index 0. -/
theorem run_status_transition_witness :
    (([acmeJan1, globexDone].map Record.id).Nodup ∧
        0 < [acmeJan1, globexDone].length) ∧
      ((process_records (fun _ => "true") [acmeJan1, globexDone]).2.store).length =
          [acmeJan1, globexDone].length ∧
        ((process_records (fun _ => "true") [acmeJan1, globexDone]).2.store).getD
            0 default =
          (if (([acmeJan1, globexDone] : List Record).getD 0 default).status =
              "pending"
            then (([acmeJan1, globexDone] : List Record).getD 0
              default).setStatus "completed"
            else ([acmeJan1, globexDone] : List Record).getD 0 default) :=
  ⟨⟨by decide, by decide⟩,
   run_status_transition (fun _ => "true") [acmeJan1, globexDone]
     (by decide) 0 (by decide)⟩

/-- Counterexample to C3: on the spec's consistent record `acmeJan1`
(10 × 5 = 50) with the collaborator stubbed to "false", `validate_record`
does not return consistent and does invoke the classification collaborator:
the source has no arithmetic short-circuit. -/
theorem deterministic_first_counterexample :
    acmeJan1.total_account_points =
        acmeJan1.new_accounts * acmeJan1.account_points ∧
      (validate_record (fun _ => "false") acmeJan1).1 ≠ none ∧
      (validate_record (fun _ => "false") acmeJan1).2 ≠ [] := by
  refine ⟨by decide, ?_, ?_⟩ <;> decide

/-- C3 (amended): for every record whose arithmetic is exactly consistent,
`validate_record` still invokes the classification collaborator exactly
once, and returns consistent (`none`) if and only if the collaborator's
response is not the exact string "false". -/
theorem consistent_record_still_escalates (record : Record)
    (ai : String → String)
    (harith : record.total_account_points =
      record.new_accounts * record.account_points) :
    (validate_record ai record).2 =
        [Event.aiCall (buildPrompt record) (ai (buildPrompt record))] ∧
      ((validate_record ai record).1 = none ↔
        ai (buildPrompt record) ≠ "false") := by
  refine ⟨rfl, ?_⟩
  constructor
  · intro h hf
    simp [validate_record, hf] at h
  · intro h
    simp [validate_record, h]

/-- Witness for C3 (amended): `acmeJan1` with the collaborator stubbed to
"true". -/
theorem consistent_record_still_escalates_witness :
    acmeJan1.total_account_points =
        acmeJan1.new_accounts * acmeJan1.account_points ∧
      (validate_record (fun _ => "true") acmeJan1).2 =
          [Event.aiCall (buildPrompt acmeJan1) "true"] ∧
        ((validate_record (fun _ => "true") acmeJan1).1 = none ↔
          ("true" : String) ≠ "false") :=
  ⟨by decide,
   consistent_record_still_escalates acmeJan1 (fun _ => "true") (by decide)⟩

/-- C4 (code divergence): a classification response matching no recognized
token ("maybe" here) is silently treated as consistent — `validate_record`
returns `none`, the same outcome as the affirming token, with no
indeterminate outcome in its result type. -/
theorem unrecognized_response_passes :
    (validate_record (fun _ => "maybe") acmeJan2).1 = none := by decide

/-- C5: in every run, exactly one email is sent when the accumulated
discrepancy list is non-empty and none when it is empty. -/
theorem email_sent_iff_discrepancies (ai : String → String)
    (store : List Record) :
    (((process_records ai store).2.events).filter Event.isEmail).length =
      (if (process_records ai store).2.discrepancies = [] then 0 else 1) := by
  rw [run_email_events]
  by_cases h : (process_records ai store).2.discrepancies = []
  · simp [send_email, h]
  · have hne : ¬(process_records ai store).2.discrepancies.isEmpty := by
      simpa [List.isEmpty_iff] using h
    simp [send_email, hne, h]

/-- C6 (code divergence): a failure raised inside the validator is NOT
caught by the pipeline loop.  With two pending records and a raising
classification call, the run aborts on the first record: the exception
propagates, and both records keep status "pending" — the failing record is
not marked completed and the second record is never processed. -/
theorem classification_failure_aborts_loop :
    process_recordsE failingAi [acmeJan1, acmeJan2] =
      (Except.error "APIConnectionError", [acmeJan1, acmeJan2]) := rfl

/-- C7: the endpoint's response is always the object with message
"Validation completed" and `errors_found` equal to the number of
discrepancies accumulated during that run. -/
theorem endpoint_response_spec (ai : String → String) (store : List Record) :
    (process_records ai store).1.message = "Validation completed" ∧
    (process_records ai store).1.errors_found =
      ((process_records ai store).2.discrepancies).length :=
  ⟨rfl, rfl⟩

/-- C8: for every record for which the classification collaborator returns
the recognized no-anomaly token "true", `validate_record` returns
consistent (`none`). -/
theorem no_anomaly_token_consistent (record : Record) (ai : String → String)
    (hai : ai (buildPrompt record) = "true") :
    (validate_record ai record).1 = none := by
  simp [validate_record, hai]

/-- Witness for C8: `acmeJan1` with the collaborator stubbed to "true". -/
theorem no_anomaly_token_consistent_witness :
    (fun _ : String => "true") (buildPrompt acmeJan1) = "true" ∧
      (validate_record (fun _ => "true") acmeJan1).1 = none :=
  ⟨rfl, no_anomaly_token_consistent acmeJan1 (fun _ => "true") rfl⟩

/-- C9: running the pipeline a second time immediately after a run, with no
new pending records added, processes zero records: the second run leaves
the store untouched, accumulates no discrepancies, and performs no
external effect at all. -/
theorem second_run_processes_nothing (ai ai2 : String → String)
    (store : List Record) (hnd : (store.map Record.id).Nodup) :
    process_records ai2 ((process_records ai store).2.store) =
      (⟨"Validation completed", 0⟩,
       ⟨(process_records ai store).2.store, [], []⟩) := by
  have hp := run_no_pending ai store hnd
  generalize hS : (process_records ai store).2.store = S at hp ⊢
  simp [process_records, hp, processLoop, send_email]

/-- Witness for C9: the two-record store, both runs stubbed to "false". -/
theorem second_run_processes_nothing_witness :
    ([acmeJan1, globexDone].map Record.id).Nodup ∧
      process_records (fun _ => "false")
          ((process_records (fun _ => "false")
            [acmeJan1, globexDone]).2.store) =
        (⟨"Validation completed", 0⟩,
         ⟨(process_records (fun _ => "false")
             [acmeJan1, globexDone]).2.store, [], []⟩) :=
  ⟨by decide,
   second_run_processes_nothing (fun _ => "false") (fun _ => "false")
     [acmeJan1, globexDone] (by decide)⟩

/-- C10: the run's accumulated discrepancy list is exactly the in-order
concatenation of the non-empty `validate_record` results over the pending
records, and the email (sent only when that list is non-empty) carries the
body listing precisely those discrepancies in that order. -/
theorem run_discrepancy_order (ai : String → String) (store : List Record) :
    (process_records ai store).2.discrepancies = specDiscrepancyList ai store ∧
    ((process_records ai store).2.events).filter Event.isEmail =
      (if specDiscrepancyList ai store = [] then []
        else [Event.emailSent (email_body (specDiscrepancyList ai store))]) := by
  have hds : (process_records ai store).2.discrepancies =
      specDiscrepancyList ai store := run_discrepancies ai store
  refine ⟨hds, ?_⟩
  rw [run_email_events, hds]
  by_cases h : specDiscrepancyList ai store = []
  · simp [send_email, h]
  · have hne : ¬(specDiscrepancyList ai store).isEmpty := by
      simpa [List.isEmpty_iff] using h
    simp [send_email, hne, h]
